import Mathlib

/-!
Shallow embedding of `ReshapingNodes.h` from the CNTK computation-network
library (namespace Microsoft.MSR.CNTK): the Stack/Unstack tensor-shuffle
helpers of `ReinterpretNodeBase`, and the `ReshapeNode`, `RowSliceNode`,
`RowStackNode` and `RowRepeatNode` operations, with theorems about their
validation, forward evaluation and gradient behaviour.

Modelling conventions.
A matrix is embedded as explicit row/column counts together with a total
entry function `Nat → Nat → Int`; the underlying storage is column-major,
so the flat (linear) index of entry `(r, c)` of an `m`-row matrix is
`r + m * c`, exactly as in the C++ `Matrix` class.  Element values are
embedded as `Int`: the reshaping nodes only move, copy and add elements
(scale factors are the exact constants 0 and 1), so no floating-point
rounding is involved.  C++ integer division or modulo by zero is undefined
behaviour; the embedding makes each such site explicit through the error
value `CNTKError.divByZero`, placed exactly where the C++ expression would
divide.  Fallible operations return `Except CNTKError _`.
-/

namespace CNTK

/-- Error outcomes of the embedded operations: `InvalidArgument`,
`LogicError` and `RuntimeError` mirror the CNTK error-reporting helpers of
the same names; `divByZero` marks a C++ integer division or modulo by zero
(undefined behaviour) at the site where the source would perform it. -/
inductive CNTKError where
  | invalidArgument
  | logicError
  | runtimeError
  | divByZero
  deriving DecidableEq

/-- Index arithmetic of the tensor shuffle (see `TensorShuffleScaleAndAdd`
below).  A destination position `j` of the `(D, K, M, S, T)`-shaped output
has digits `d = j % D`, `k = j / D % K`, `m = j / (D*K) % M`,
`s = j / (D*K*M) % S`, `t = j / (D*K*M*S)` (fastest-varying first); the
element written there comes from the source position with the same digits
read in `(D, S, M, K, T)` order, i.e. with the `S` and `K` axes swapped. -/
def shuffleSrcIndex (D S M K T : Nat) (j : Nat) : Nat :=
  j % D + D * (j / (D * K * M) % S + S * (j / (D * K) % M + M * (j / D % K + K * (j / (D * K * M * S)))))

/-- Modelled from the spec: `Matrix<ElemType>::TensorShuffleScaleAndAdd`
(the TensorShuffleEngine), whose implementation lives in the matrix
library, not under src/.  Per the spec, the source view is organised as
`(D, S, M, K, T)` and the destination as `(D, K, M, S, T)`; for every
multi-index the source element is scaled by `scaleFactor` and combined with
the existing destination value scaled by `keepWeight` (`0` = overwrite,
`1` = accumulate).  The worked storage example in the `Stack` comment of
`ReshapingNodes.h` (input `aubvcw dxeyfz`, target `abcuvw defxyz` for
`D=2, S=2, K=3, T=2`) is reproduced by this definition.  Views are
embedded as total functions from flat column-major indices to values. -/
def TensorShuffleScaleAndAdd (keepWeight : Int) (fromView : Nat → Int) (D S M K T : Nat)
    (scaleFactor : Int) (toView : Nat → Int) : Nat → Int :=
  fun j => keepWeight * toView j + scaleFactor * fromView (shuffleSrcIndex D S M K T j)

/-- `ReinterpretNodeBase::Stack`: stack `K` consecutive frames into a single
frame that is `K` times taller.  `S` and `T` come from the reduced
(`to`-side) layout `pMBLayout`, `D` is the row count of `from`, and the
shuffle is called with axis order `(D, S, M = 1, K, T)`.  This embeds the
all-frames instantiation (the only one reachable through `ReshapeNode`,
which rejects partial frame ranges), where `DataSlice` is the identity view
and the `Reshaped` calls leave the flat storage unchanged. -/
def Stack (S T : Nat) (D : Nat) (fromView toView : Nat → Int) (K : Nat) (addTo : Bool) :
    Nat → Int :=
  TensorShuffleScaleAndAdd (if addTo then 1 else 0) fromView D S 1 K T 1 toView

/-- `ReinterpretNodeBase::Unstack`: split frames of `D*K` elements into `K`
consecutive frames of dimension `D`; the inverse direction of `Stack`.
`S` and `T` come from the reduced (`from`-side) layout, `D` is the row
count of `to`, and the shuffle is called with axis order
`(D, K, M = 1, S, T)`.  All-frames instantiation, as for `Stack`. -/
def Unstack (S T : Nat) (D : Nat) (fromView toView : Nat → Int) (K : Nat) (addTo : Bool) :
    Nat → Int :=
  TensorShuffleScaleAndAdd (if addTo then 1 else 0) fromView D K 1 S T 1 toView

theorem shuffleSrcIndex_digits (D S K T d s k t : Nat) (hd : d < D) (hk : k < K) (hs : s < S) :
    shuffleSrcIndex D S 1 K T (d + D * (k + K * (s + S * t))) = d + D * (s + S * (k + K * t)) := by
  have hD : 0 < D := Nat.lt_of_le_of_lt (Nat.zero_le d) hd
  have hK : 0 < K := Nat.lt_of_le_of_lt (Nat.zero_le k) hk
  have hS : 0 < S := Nat.lt_of_le_of_lt (Nat.zero_le s) hs
  have h1 : (d + D * (k + K * (s + S * t))) % D = d := by
    rw [Nat.add_mul_mod_self_left, Nat.mod_eq_of_lt hd]
  have h2 : (d + D * (k + K * (s + S * t))) / D = k + K * (s + S * t) := by
    rw [Nat.add_mul_div_left _ _ hD, Nat.div_eq_of_lt hd, Nat.zero_add]
  have h3 : (d + D * (k + K * (s + S * t))) / (D * K) = s + S * t := by
    rw [← Nat.div_div_eq_div_mul, h2, Nat.add_mul_div_left _ _ hK, Nat.div_eq_of_lt hk,
      Nat.zero_add]
  have h4 : (d + D * (k + K * (s + S * t))) / D % K = k := by
    rw [h2, Nat.add_mul_mod_self_left, Nat.mod_eq_of_lt hk]
  have h5 : (d + D * (k + K * (s + S * t))) / (D * K) % S = s := by
    rw [h3, Nat.add_mul_mod_self_left, Nat.mod_eq_of_lt hs]
  have h6 : (d + D * (k + K * (s + S * t))) / (D * K * S) = t := by
    rw [← Nat.div_div_eq_div_mul, h3, Nat.add_mul_div_left _ _ hS, Nat.div_eq_of_lt hs,
      Nat.zero_add]
  simp only [shuffleSrcIndex, Nat.mul_one, Nat.mod_one, Nat.one_mul, Nat.zero_add,
    h1, h4, h5, h6]

/-- C1: for every tensor `x` decomposing as `(D, S, M = 1, K, T)` with
`D, S, K, T ≥ 1`, applying `Stack` with factor `K` and then `Unstack` with
factor `K` (both with overwrite semantics, `addTo = false`, over the full
frame range) returns a buffer equal to `x` on every flat position of the
`D*S*K*T`-element buffer: the two shuffle directions are mutually inverse. -/
theorem stack_unstack_roundtrip (D S K T : Nat)
    (hD : 1 ≤ D) (hS : 1 ≤ S) (hK : 1 ≤ K) (hT : 1 ≤ T)
    (x y z : Nat → Int) (j : Nat) (hj : j < D * S * K * T) :
    Unstack S T D (Stack S T D x y K false) z K false j = x j := by
  have hd : j % D < D := Nat.mod_lt _ hD
  have hs : j / D % S < S := Nat.mod_lt _ hS
  have hk : j / D / S % K < K := Nat.mod_lt _ hK
  have hdec : j = j % D + D * (j / D % S + S * (j / D / S % K + K * (j / D / S / K))) := by
    rw [Nat.mod_add_div, Nat.mod_add_div, Nat.mod_add_div]
  have key : shuffleSrcIndex D S 1 K T (shuffleSrcIndex D K 1 S T j) = j := by
    have h2 : shuffleSrcIndex D K 1 S T j
        = j % D + D * (j / D / S % K + K * (j / D % S + S * (j / D / S / K))) := by
      conv_lhs => rw [hdec]
      exact shuffleSrcIndex_digits D K S T (j % D) (j / D / S % K) (j / D % S) (j / D / S / K)
        hd hs hk
    rw [h2, shuffleSrcIndex_digits D S K T (j % D) (j / D % S) (j / D / S % K) (j / D / S / K)
      hd hk hs]
    exact hdec.symm
  simp [Unstack, Stack, TensorShuffleScaleAndAdd, key]

/-- Concrete instance of the C1 round trip at `D = 2, S = 2, K = 3, T = 2`,
position 5 of the 24-element buffer. -/
theorem stack_unstack_roundtrip_witness :
    Unstack 2 2 2 (Stack 2 2 2 (fun i => (i : Int)) (fun _ => 0) 3 false) (fun _ => 0) 3 false 5
      = (fun i => (i : Int)) 5 :=
  stack_unstack_roundtrip 2 2 3 2 (by decide) (by decide) (by decide) (by decide)
    (fun i => (i : Int)) (fun _ => 0) (fun _ => 0) 5 (by decide)

/-- A dense 2-D buffer: row count, column count and a total entry function.
Storage is column-major, matching the C++ `Matrix` class. -/
structure CMatrix where
  nrows : Nat
  ncols : Nat
  entry : Nat → Nat → Int

/-- The element at flat column-major position `i` of a matrix: row `i % nrows`,
column `i / nrows`.  This is the view produced by `Reshaped(n, 1)`. -/
def CMatrix.flatIdx (A : CMatrix) (i : Nat) : Int :=
  A.entry (i % A.nrows) (i / A.nrows)

/-- Build an `n × m` matrix over a given flat column-major storage. -/
def matrixOfFlat (n m : Nat) (f : Nat → Int) : CMatrix :=
  { nrows := n, ncols := m, entry := fun r c => f (r + n * c) }

/-- `ReshapeNode::weStack()`: do we stack (multiple frames into one)?  True
iff the configured row count exceeds the input row count. -/
def weStack (numRows rows : Nat) : Bool :=
  numRows > rows

/-- `ReshapeNode::factor()`: factor by which we stack or unstack. -/
def factor (numRows rows : Nat) : Nat :=
  if numRows > rows then numRows / rows else rows / numRows

/-- `ReshapeNode::Validate`: computes `newCols = cols * rows / numRows`
(division by zero made explicit, as in the C++ this is the first use of
`m_numRows`), then on the final validation pass raises `InvalidArgument`
when the target row count is neither a multiple nor a divisor of the input
row count (with the modulo-by-zero of `numRows % rows` for `rows = 0` made
explicit), and `LogicError` when the node has no minibatch layout and the
element counts disagree.  Returns the output dimensions `(numRows, newCols)`
passed to `Resize`. -/
def ReshapeNodeValidate (numRows rows cols : Nat) (hasMBLayout isFinalValidationPass : Bool) :
    Except CNTKError (Nat × Nat) :=
  if numRows = 0 then Except.error CNTKError.divByZero
  else if isFinalValidationPass then
    if numRows > rows ∧ rows = 0 then Except.error CNTKError.divByZero
    else if (numRows > rows ∧ numRows % rows ≠ 0) ∨ (numRows < rows ∧ rows % numRows ≠ 0) then
      Except.error CNTKError.invalidArgument
    else if hasMBLayout = false ∧ rows * cols ≠ numRows * (cols * rows / numRows) then
      Except.error CNTKError.logicError
    else Except.ok (numRows, cols * rows / numRows)
  else Except.ok (numRows, cols * rows / numRows)

/-- `ReshapeNode::UpdateFunctionMBSize`: recomputes `newCols` (same unguarded
division by `m_numRows`), then with no layout calls
`VerifySize(numRows, newCols)` against the current output size (`LogicError`
on mismatch), else resizes to `(numRows, newCols)`. -/
def ReshapeNodeUpdateFunctionMBSize (numRows rows cols curRows curCols : Nat)
    (hasMBLayout : Bool) : Except CNTKError (Nat × Nat) :=
  if numRows = 0 then Except.error CNTKError.divByZero
  else if hasMBLayout = false then
    if curRows = numRows ∧ curCols = cols * rows / numRows then
      Except.ok (numRows, cols * rows / numRows)
    else Except.error CNTKError.logicError
  else Except.ok (numRows, cols * rows / numRows)

/-- `ReshapeNode::OnEvaluateBeginIteration` (layout case): initialises the
derived layout with the input's parallel-sequence count and
`inputTimeSteps * inputRows / numRows` time steps, then raises `LogicError`
when stacking unless the derived layout has exactly one time step, and when
not stacking unless the input layout has exactly one time step.  The
sentence flags set on the derived layout are metadata not modelled here.
`inputLayout` is `(numParallelSequences, numTimeSteps)` of the input. -/
def ReshapeNodeOnEvaluateBeginIteration (numRows rows : Nat) (inputLayout : Nat × Nat) :
    Except CNTKError (Nat × Nat) :=
  if numRows = 0 then Except.error CNTKError.divByZero
  else if weStack numRows rows then
    if inputLayout.2 * rows / numRows ≠ 1 then Except.error CNTKError.logicError
    else Except.ok (inputLayout.1, inputLayout.2 * rows / numRows)
  else if inputLayout.2 ≠ 1 then Except.error CNTKError.logicError
  else Except.ok (inputLayout.1, inputLayout.2 * rows / numRows)

/-- `ReshapeNode::EvaluateThisNode`: recomputes `newCols` (unguarded division
by `m_numRows` made explicit); with no layout the output is the flat
column-major copy of the input reinterpreted as `numRows × newCols`
(the `Reshaped`/`SetValue` pair, modelled from the spec as an
order-preserving linear copy since the matrix library is not under src/);
with a layout, a partial frame range raises `InvalidArgument`, and otherwise
the node dispatches to `Stack` (target layout `pMBLayout`) when stacking,
else to `Unstack` (source layout `inputLayout`).  The preallocated output
contents are irrelevant under overwrite semantics and are modelled as
zeros. -/
def ReshapeNodeEvaluateThisNode (numRows : Nat) (input : CMatrix)
    (pMBLayout : Option (Nat × Nat)) (inputLayout : Nat × Nat) (isAllFrames : Bool) :
    Except CNTKError CMatrix :=
  let rows := input.nrows
  let cols := input.ncols
  if numRows = 0 then Except.error CNTKError.divByZero
  else
    let newCols := cols * rows / numRows
    match pMBLayout with
    | none =>
        Except.ok (matrixOfFlat numRows newCols input.flatIdx)
    | some layout =>
        if isAllFrames = false then Except.error CNTKError.invalidArgument
        else if weStack numRows rows then
          Except.ok (matrixOfFlat numRows newCols
            (Stack layout.1 layout.2 rows input.flatIdx (fun _ => 0) (factor numRows rows) false))
        else
          Except.ok (matrixOfFlat numRows newCols
            (Unstack inputLayout.1 inputLayout.2 numRows input.flatIdx (fun _ => 0)
              (factor numRows rows) false))

theorem ReshapeNodeValidate_ok (numRows rows cols : Nat) (hasMBLayout isFinal : Bool)
    (p : Nat × Nat) (h : ReshapeNodeValidate numRows rows cols hasMBLayout isFinal = Except.ok p) :
    numRows ≠ 0 ∧ p = (numRows, cols * rows / numRows) := by
  unfold ReshapeNodeValidate at h
  split_ifs at h <;> simp_all

/-- C2: for every input buffer with no batch layout whose dimensions pass
final validation against the target row count `numRows`, forward evaluation
produces a `numRows × newCols` output whose flat column-major element
sequence agrees with the input's flat element sequence at every position. -/
theorem reshape_noLayout_flat_copy (numRows newCols : Nat) (input : CMatrix)
    (hval : ReshapeNodeValidate numRows input.nrows input.ncols false true
      = Except.ok (numRows, newCols)) :
    ∃ out, ReshapeNodeEvaluateThisNode numRows input none (0, 0) true = Except.ok out ∧
      out.nrows = numRows ∧ out.ncols = newCols ∧ ∀ i, out.flatIdx i = input.flatIdx i := by
  obtain ⟨hnz, hp⟩ := ReshapeNodeValidate_ok _ _ _ _ _ _ hval
  have hcols : newCols = input.ncols * input.nrows / numRows := (Prod.mk.injEq _ _ _ _ ▸ hp).2
  refine ⟨matrixOfFlat numRows (input.ncols * input.nrows / numRows) input.flatIdx, ?_, ?_, ?_, ?_⟩
  · simp [ReshapeNodeEvaluateThisNode, hnz]
  · rfl
  · exact hcols.symm
  · intro i
    show input.flatIdx (i % numRows + numRows * (i / numRows)) = input.flatIdx i
    rw [Nat.mod_add_div]

/-- Concrete instance of C2: reshaping a 4×6 buffer to `numRows = 8` yields
an 8×3 buffer with the same flat element sequence. -/
theorem reshape_noLayout_flat_copy_witness :
    ∃ out, ReshapeNodeEvaluateThisNode 8
        { nrows := 4, ncols := 6, entry := fun r c => (r + 4 * c : Int) } none (0, 0) true
        = Except.ok out ∧
      out.nrows = 8 ∧ out.ncols = 3 ∧
      ∀ i, out.flatIdx i
        = CMatrix.flatIdx { nrows := 4, ncols := 6, entry := fun r c => (r + 4 * c : Int) } i :=
  reshape_noLayout_flat_copy 8 3
    { nrows := 4, ncols := 6, entry := fun r c => (r + 4 * c : Int) } (by rfl)

/-- C3: on the final validation pass (with a positive configured row count
and a positive input row count, cf. the `numRows = 0` hazard recorded
separately), `ReshapeNode` validation fails with the `InvalidArgument`
configuration error exactly when `numRows` is neither an integer multiple of
`rows` (when `numRows > rows`) nor an integer divisor of `rows` (when
`numRows < rows`). -/
theorem reshape_validate_invalidArgument_iff (numRows rows cols : Nat) (hasMBLayout : Bool)
    (hnr : 0 < numRows) (hr : 0 < rows) :
    ReshapeNodeValidate numRows rows cols hasMBLayout true
        = Except.error CNTKError.invalidArgument ↔
      (rows < numRows ∧ ¬ rows ∣ numRows) ∨ (numRows < rows ∧ ¬ numRows ∣ rows) := by
  have hRc : ((rows < numRows ∧ ¬ rows ∣ numRows) ∨ (numRows < rows ∧ ¬ numRows ∣ rows)) ↔
      ((numRows > rows ∧ numRows % rows ≠ 0) ∨ (numRows < rows ∧ rows % numRows ≠ 0)) := by
    simp [Nat.dvd_iff_mod_eq_zero, gt_iff_lt]
  rw [hRc]
  unfold ReshapeNodeValidate
  rw [if_neg (Nat.pos_iff_ne_zero.mp hnr)]
  simp only [if_pos rfl]
  rw [if_neg (by omega : ¬ (numRows > rows ∧ rows = 0))]
  split_ifs with h1 h2 <;> simp_all

/-- Concrete instance of C3: `rows = 5`, `numRows = 3` is rejected with the
`InvalidArgument` configuration error. -/
theorem reshape_validate_invalidArgument_witness :
    ReshapeNodeValidate 3 5 7 false true = Except.error CNTKError.invalidArgument :=
  (reshape_validate_invalidArgument_iff 3 5 7 false (by decide) (by decide)).mpr (by decide)

/-- C6: for a `ReshapeNode` whose input carries a batch layout (and a
positive configured row count, cf. the `numRows = 0` hazard recorded
separately), forward evaluation over a partial frame range fails with the
`InvalidArgument` operational-misuse error, while evaluation over the full
frame range succeeds. -/
theorem reshape_eval_partial_range_rejected (numRows : Nat) (input : CMatrix)
    (S T S0 T0 : Nat) (hnr : 0 < numRows) :
    ReshapeNodeEvaluateThisNode numRows input (some (S, T)) (S0, T0) false
        = Except.error CNTKError.invalidArgument ∧
      ∃ out, ReshapeNodeEvaluateThisNode numRows input (some (S, T)) (S0, T0) true
        = Except.ok out := by
  have hnz : numRows ≠ 0 := Nat.pos_iff_ne_zero.mp hnr
  constructor
  · simp [ReshapeNodeEvaluateThisNode, hnz]
  · by_cases h : weStack numRows input.nrows = true <;>
      simp [ReshapeNodeEvaluateThisNode, hnz, h]

/-- Concrete instance of C6 at `numRows = 2` on a 1×2 input with a layout. -/
theorem reshape_eval_partial_range_rejected_witness :
    ReshapeNodeEvaluateThisNode 2 { nrows := 1, ncols := 2, entry := fun _ _ => 5 }
        (some (1, 1)) (1, 2) false = Except.error CNTKError.invalidArgument ∧
      ∃ out, ReshapeNodeEvaluateThisNode 2 { nrows := 1, ncols := 2, entry := fun _ _ => 5 }
        (some (1, 1)) (1, 2) true = Except.ok out :=
  reshape_eval_partial_range_rejected 2 { nrows := 1, ncols := 2, entry := fun _ _ => 5 }
    1 1 1 2 (by decide)

/-- C7: with a batch layout (and positive configured row count), the derived
per-pass layout keeps the input's parallel-sequence count and has
`inputTimeSteps * inputRows / numRows` time steps; when stacking
(`numRows > rows`) a `LogicError` is raised exactly unless the derived
layout has one time step, and when unstacking (`numRows < rows`) a
`LogicError` is raised exactly unless the input layout has one time step. -/
theorem reshape_begin_iteration_layout (numRows rows S T : Nat) (hnr : 0 < numRows) :
    (∀ S2 T2, ReshapeNodeOnEvaluateBeginIteration numRows rows (S, T) = Except.ok (S2, T2) →
        S2 = S ∧ T2 = T * rows / numRows) ∧
      (rows < numRows →
        (ReshapeNodeOnEvaluateBeginIteration numRows rows (S, T)
            = Except.error CNTKError.logicError ↔ T * rows / numRows ≠ 1)) ∧
      (numRows < rows →
        (ReshapeNodeOnEvaluateBeginIteration numRows rows (S, T)
            = Except.error CNTKError.logicError ↔ T ≠ 1)) := by
  have hnz : numRows ≠ 0 := Nat.pos_iff_ne_zero.mp hnr
  unfold ReshapeNodeOnEvaluateBeginIteration weStack
  rw [if_neg hnz]
  refine ⟨?_, ?_, ?_⟩
  · intro S2 T2 h
    split_ifs at h <;> simp_all
  · intro hlt
    rw [if_pos (by simpa using hlt)]
    split_ifs with h <;> simp_all
  · intro hlt
    rw [if_neg (by simp; omega)]
    split_ifs with h <;> simp_all

/-- Concrete instance of C7 at `numRows = 4`, `rows = 2`, input layout
`(S, T) = (3, 2)`: stacking derives layout `(3, 1)` without error. -/
theorem reshape_begin_iteration_layout_witness :
    (∀ S2 T2, ReshapeNodeOnEvaluateBeginIteration 4 2 (3, 2) = Except.ok (S2, T2) →
        S2 = 3 ∧ T2 = 2 * 2 / 4) ∧
      (2 < 4 →
        (ReshapeNodeOnEvaluateBeginIteration 4 2 (3, 2) = Except.error CNTKError.logicError ↔
          2 * 2 / 4 ≠ 1)) ∧
      (4 < 2 →
        (ReshapeNodeOnEvaluateBeginIteration 4 2 (3, 2) = Except.error CNTKError.logicError ↔
          2 ≠ 1)) :=
  reshape_begin_iteration_layout 4 2 3 2 (by decide)

/-- C10: a `ReshapeNode` left at its constructor default `numRows = 0` hits
the unguarded division `cols * rows / numRows` in both `Validate` and
`UpdateFunctionMBSize` before any rejection can occur: for every input
shape, layout flag and validation pass the outcome is the division-by-zero
hazard, never a validation error. -/
theorem reshape_numRows_zero_unguarded_division :
    ∀ rows cols curRows curCols : Nat, ∀ hasMBLayout isFinal : Bool,
      ReshapeNodeValidate 0 rows cols hasMBLayout isFinal = Except.error CNTKError.divByZero ∧
      ReshapeNodeUpdateFunctionMBSize 0 rows cols curRows curCols hasMBLayout
        = Except.error CNTKError.divByZero := by
  intro rows cols curRows curCols hasMBLayout isFinal
  constructor <;> rfl

/-- Image-shape metadata carried alongside a buffer: width, height and
channel count, as in the CNTK `ImageLayout` struct. -/
structure ImageLayout where
  width : Nat
  height : Nat
  channels : Nat

/-- `RowSliceNode::InferImageDimsFromInputs`: inherit the child's image
layout, overwrite the height with the node's own row count, and report the
informational warning (`Image size info is lost`) exactly when the child's
`width * channels` differs from 1.  The Boolean component records whether
the warning is printed. -/
def RowSliceNodeInferImageDimsFromInputs (inputImageLayout : ImageLayout) (numRows : Nat) :
    ImageLayout × Bool :=
  ({ inputImageLayout with height := numRows },
    inputImageLayout.width * inputImageLayout.channels != 1)

/-- `RowStackNode::InferImageDimsFromInputs`: inherit the first child's
image layout, overwrite the height with the stacked output row count, and
report the same informational warning under the same condition. -/
def RowStackNodeInferImageDimsFromInputs (inputImageLayout : ImageLayout) (outputRows : Nat) :
    ImageLayout × Bool :=
  ({ inputImageLayout with height := outputRows },
    inputImageLayout.width * inputImageLayout.channels != 1)

/-- `RowRepeatNode::InferImageDimsFromInputs`: inherit the child's image
layout, multiply the height by the repeat count, and report the same
informational warning under the same condition. -/
def RowRepeatNodeInferImageDimsFromInputs (inputImageLayout : ImageLayout) (numRepeat : Nat) :
    ImageLayout × Bool :=
  ({ inputImageLayout with height := inputImageLayout.height * numRepeat },
    inputImageLayout.width * inputImageLayout.channels != 1)

/-- C5 counterexample: the claim states that `RowSlice` emits no image-size
warning, but on an input image layout with `width * channels = 2 * 1 ≠ 1`
the source (lines 529-531 of `ReshapingNodes.h`) does print the warning. -/
theorem rowslice_warning_emitted :
    (RowSliceNodeInferImageDimsFromInputs { width := 2, height := 3, channels := 1 } 5).2
      = true := rfl

/-- C5 amended: all three row transforms — `RowSlice` included — emit the
non-fatal image-size warning exactly when the input layout's
`width * channels` differs from 1; `RowSlice` recomputes its own output
image height (setting it to its row count) but still warns. -/
theorem rowtransform_warning_conditions (il : ImageLayout) (numRows outputRows numRepeat : Nat) :
    ((RowSliceNodeInferImageDimsFromInputs il numRows).2 = true ↔ il.width * il.channels ≠ 1) ∧
      (RowSliceNodeInferImageDimsFromInputs il numRows).1.height = numRows ∧
      ((RowStackNodeInferImageDimsFromInputs il outputRows).2 = true ↔
        il.width * il.channels ≠ 1) ∧
      ((RowRepeatNodeInferImageDimsFromInputs il numRepeat).2 = true ↔
        il.width * il.channels ≠ 1) := by
  simp [RowSliceNodeInferImageDimsFromInputs, RowStackNodeInferImageDimsFromInputs,
    RowRepeatNodeInferImageDimsFromInputs]

/-- Modelled from the spec: `Matrix::AssignRowSliceValuesOf(a, startIndex,
numRows)` (matrix library, not under src/) — the output becomes rows
`[startIndex, startIndex + numRows)` of `a`, all columns preserved; entry
`(r, c)` of the result is entry `(startIndex + r, c)` of the input. -/
def AssignRowSliceValuesOf (a : Nat → Nat → Int) (startIndex numRows : Nat) :
    Nat → Nat → Int :=
  fun r c => a (startIndex + r) c

/-- `RowSliceNode::EvaluateThisNode`: the output values are
`AssignRowSliceValuesOf` of the input values at the configured row band.
The `numRows` parameter is the band height (output dimensioning is done by
`Validate`). -/
def RowSliceNodeEvaluateThisNode (input : Nat → Nat → Int) (startIndex numRows : Nat) :
    Nat → Nat → Int :=
  AssignRowSliceValuesOf input startIndex numRows

/-- `RowSliceNode::Validate`: on the final pass, raise `RuntimeError` when
`startIndex + numRows` exceeds the input row count; resize the output to
`(numRows, inputCols)`. -/
def RowSliceNodeValidate (startIndex numRows inputRows inputCols : Nat) (isFinal : Bool) :
    Except CNTKError (Nat × Nat) :=
  if isFinal = true ∧ inputRows < startIndex + numRows then Except.error CNTKError.runtimeError
  else Except.ok (numRows, inputCols)

/-- Modelled from the spec: `Matrix::AddToRowSliceValuesOf(a, startIndex,
numRows)` (matrix library, not under src/) — rows
`[startIndex, startIndex + numRows)` of the destination accumulate (`+=`)
the corresponding rows of `a`; all other destination entries are
unchanged. -/
def AddToRowSliceValuesOf (dest a : Nat → Nat → Int) (startIndex numRows : Nat) :
    Nat → Nat → Int :=
  fun r c =>
    if startIndex ≤ r ∧ r < startIndex + numRows then dest r c + a (r - startIndex) c
    else dest r c

/-- `RowSliceNode::ComputeInputPartial`: the input gradient accumulates the
output gradient into its configured row band via `AddToRowSliceValuesOf`. -/
def RowSliceNodeComputeInputPartial (inputGradient outputGradient : Nat → Nat → Int)
    (startIndex numRows : Nat) : Nat → Nat → Int :=
  AddToRowSliceValuesOf inputGradient outputGradient startIndex numRows

/-- C9: for `RowSlice(startIndex, numRows)` on an input of at least
`startIndex + numRows` rows, backpropagation adds the output gradient
exactly onto rows `[startIndex, startIndex + numRows)` of the input
gradient and leaves every entry outside that row band unchanged. -/
theorem rowslice_backprop_band (startIndex numRows inputRows : Nat)
    (hv : startIndex + numRows ≤ inputRows)
    (inputGradient outputGradient : Nat → Nat → Int) :
    ∀ r c,
      (startIndex ≤ r ∧ r < startIndex + numRows →
        RowSliceNodeComputeInputPartial inputGradient outputGradient startIndex numRows r c
          = inputGradient r c + outputGradient (r - startIndex) c) ∧
      (r < startIndex ∨ startIndex + numRows ≤ r →
        RowSliceNodeComputeInputPartial inputGradient outputGradient startIndex numRows r c
          = inputGradient r c) := by
  intro r c
  constructor
  · intro h
    simp [RowSliceNodeComputeInputPartial, AddToRowSliceValuesOf, h]
  · intro h
    have hnot : ¬ (startIndex ≤ r ∧ r < startIndex + numRows) := by omega
    simp [RowSliceNodeComputeInputPartial, AddToRowSliceValuesOf, hnot]

/-- Concrete instance of C9: `RowSlice(2, 3)` on a 10-row input, all-ones
output gradient, zero input gradient, probed at row 3 (inside the band). -/
theorem rowslice_backprop_band_witness :
    (2 ≤ 3 ∧ 3 < 2 + 3 →
      RowSliceNodeComputeInputPartial (fun _ _ => 0) (fun _ _ => 1) 2 3 3 0
        = (fun _ _ => (0 : Int)) 3 0 + (fun _ _ => (1 : Int)) (3 - 2) 0) ∧
      (3 < 2 ∨ 2 + 3 ≤ 3 →
        RowSliceNodeComputeInputPartial (fun _ _ => 0) (fun _ _ => 1) 2 3 3 0
          = (fun _ _ => (0 : Int)) 3 0) :=
  rowslice_backprop_band 2 3 10 (by decide) (fun _ _ => 0) (fun _ _ => 1) 3 0

/-- The validation loop of `RowStackNode::Validate` over the children's
`(rows, cols)` dimensions: for child `i`, on the final pass a column count
different from the first child's raises `LogicError` naming the offending
child (modelled by its index); otherwise the child's start row index is
recorded as the running total before its rows are added.  Returns the
cached `m_startRowIndices` together with `totalRows`. -/
def rowStackGo (numCols : Nat) (isFinal : Bool) :
    List (Nat × Nat) → Nat → Nat → Except (CNTKError × Nat) (List Nat × Nat)
  | [], _, totalRows => Except.ok ([], totalRows)
  | (r, c) :: rest, i, totalRows =>
    if isFinal = true ∧ c ≠ numCols then Except.error (CNTKError.logicError, i)
    else
      match rowStackGo numCols isFinal rest (i + 1) (totalRows + r) with
      | Except.error e => Except.error e
      | Except.ok (offs, total) => Except.ok (totalRows :: offs, total)

/-- `RowStackNode::Validate`: runs the loop over all children with
`numCols` taken from the first child. -/
def RowStackNodeValidate (dims : List (Nat × Nat)) (isFinal : Bool) :
    Except (CNTKError × Nat) (List Nat × Nat) :=
  rowStackGo (dims.headD (0, 0)).2 isFinal dims 0 0

/-- Exclusive prefix sums starting at `t`: the start row indices the
validation loop assigns to children with the given row counts. -/
def offsetsFrom (t : Nat) : List Nat → List Nat
  | [] => []
  | r :: rest => t :: offsetsFrom (t + r) rest

/-- Modelled from the spec: `Matrix::AssignToRowSliceValuesOf(a, startIndex,
numRows)` (matrix library, not under src/) — rows
`[startIndex, startIndex + numRows)` of the destination are overwritten with
`a`; all other destination entries are unchanged. -/
def AssignToRowSliceValuesOf (dest a : Nat → Nat → Int) (startIndex numRows : Nat) :
    Nat → Nat → Int :=
  fun r c =>
    if startIndex ≤ r ∧ r < startIndex + numRows then a (r - startIndex) c
    else dest r c

/-- `RowStackNode::EvaluateThisNode`: for each child in order, write its
values into its start-row band of the output via
`AssignToRowSliceValuesOf`.  Children are `(rows, values)` pairs, paired
positionally with the cached start row indices; `acc` is the preallocated
output. -/
def RowStackNodeEvaluateThisNode :
    List (Nat × (Nat → Nat → Int)) → List Nat → (Nat → Nat → Int) → Nat → Nat → Int
  | [], _, acc => acc
  | _ :: _, [], acc => acc
  | (rows, src) :: rest, off :: offs, acc =>
    RowStackNodeEvaluateThisNode rest offs (AssignToRowSliceValuesOf acc src off rows)

theorem rowStackGo_mismatch (numCols : Nat) (l : List (Nat × Nat))
    (hmix : ∃ p ∈ l, p.2 ≠ numCols) :
    ∀ i0 t, ∃ i d, rowStackGo numCols true l i0 t = Except.error (CNTKError.logicError, i) ∧
      i0 ≤ i ∧ l[i - i0]? = some d ∧ d.2 ≠ numCols := by
  induction l with
  | nil => simp at hmix
  | cons hd tl ih =>
    obtain ⟨r, c⟩ := hd
    intro i0 t
    by_cases hc : c ≠ numCols
    · exact ⟨i0, (r, c), by simp [rowStackGo, hc], Nat.le_refl _, by simp, hc⟩
    · push_neg at hc
      have hmix2 : ∃ p ∈ tl, p.2 ≠ numCols := by
        rcases hmix with ⟨p, hp, hne⟩
        rcases List.mem_cons.mp hp with h | h
        · subst h; exact absurd hc hne
        · exact ⟨p, h, hne⟩
      obtain ⟨i, d, hgo, hle, hget, hne⟩ := ih hmix2 (i0 + 1) (t + r)
      refine ⟨i, d, ?_, by omega, ?_, hne⟩
      · simp [rowStackGo, hc, hgo]
      · have hi : i - i0 = (i - (i0 + 1)) + 1 := by omega
        rw [hi]
        simpa using hget

/-- C4: whenever some `RowStack` input's column count differs from the first
input's, final-pass validation fails with the error that names an offending
input: an input index whose column count disagrees with the first input's. -/
theorem rowstack_validate_mismatch_names_input (dims : List (Nat × Nat))
    (hmix : ∃ p ∈ dims, p.2 ≠ (dims.headD (0, 0)).2) :
    ∃ i d, RowStackNodeValidate dims true = Except.error (CNTKError.logicError, i) ∧
      dims[i]? = some d ∧ d.2 ≠ (dims.headD (0, 0)).2 := by
  obtain ⟨i, d, hgo, _, hget, hne⟩ := rowStackGo_mismatch (dims.headD (0, 0)).2 dims hmix 0 0
  exact ⟨i, d, hgo, by simpa using hget, hne⟩

/-- Concrete instance of C4: inputs with 4 and 5 columns; validation fails
naming input 1, whose 5 columns differ from the first input's 4. -/
theorem rowstack_validate_mismatch_witness :
    ∃ i d, RowStackNodeValidate [(3, 4), (2, 5)] true
        = Except.error (CNTKError.logicError, i) ∧
      [(3, 4), (2, 5)][i]? = some d ∧ d.2 ≠ ([(3, 4), (2, 5)].headD (0, 0)).2 :=
  rowstack_validate_mismatch_names_input [(3, 4), (2, 5)] ⟨(2, 5), by simp, by simp⟩

theorem rowStackGo_all_match (numCols : Nat) (isFinal : Bool) (l : List (Nat × Nat))
    (h : ∀ p ∈ l, p.2 = numCols) :
    ∀ i t, rowStackGo numCols isFinal l i t
      = Except.ok (offsetsFrom t (l.map Prod.fst), t + (l.map Prod.fst).sum) := by
  induction l with
  | nil => intro i t; simp [rowStackGo, offsetsFrom]
  | cons hd tl ih =>
    obtain ⟨r, c⟩ := hd
    intro i t
    have hc : c = numCols := h (r, c) (List.mem_cons_self _ _)
    have htl : ∀ p ∈ tl, p.2 = numCols := fun p hp => h p (List.mem_cons_of_mem _ hp)
    simp only [rowStackGo, hc, ne_eq, not_true_eq_false, and_false, if_false,
      ih htl (i + 1) (t + r), List.map_cons, offsetsFrom, List.sum_cons]
    rw [Nat.add_assoc]

theorem rowStackEval_untouched (inputs : List (Nat × (Nat → Nat → Int))) :
    ∀ (t : Nat) (acc : Nat → Nat → Int) (r c : Nat), r < t →
      RowStackNodeEvaluateThisNode inputs (offsetsFrom t (inputs.map Prod.fst)) acc r c
        = acc r c := by
  induction inputs with
  | nil => intro t acc r c _; rfl
  | cons hd tl ih =>
    obtain ⟨r0, s0⟩ := hd
    intro t acc r c hr
    show RowStackNodeEvaluateThisNode tl (offsetsFrom (t + r0) (tl.map Prod.fst))
      (AssignToRowSliceValuesOf acc s0 t r0) r c = acc r c
    rw [ih (t + r0) _ r c (by omega)]
    have hnot : ¬ (t ≤ r ∧ r < t + r0) := by omega
    simp [AssignToRowSliceValuesOf, hnot]

theorem rowStack_recover (inputs : List (Nat × (Nat → Nat → Int))) :
    ∀ (t : Nat) (acc : Nat → Nat → Int) (i ri : Nat) (si : Nat → Nat → Int) (off : Nat),
      inputs[i]? = some (ri, si) →
      (offsetsFrom t (inputs.map Prod.fst))[i]? = some off →
      ∀ r, r < ri → ∀ c,
        RowStackNodeEvaluateThisNode inputs (offsetsFrom t (inputs.map Prod.fst)) acc (off + r) c
          = si r c := by
  induction inputs with
  | nil => intro t acc i ri si off h1 _ r hr c; simp at h1
  | cons hd tl ih =>
    obtain ⟨r0, s0⟩ := hd
    intro t acc i ri si off h1 h2 r hr c
    cases i with
    | zero =>
      have h1e : r0 = ri ∧ s0 = si := by simpa using h1
      have hoff : t = off := by simpa [offsetsFrom] using h2
      obtain ⟨hri, hsi⟩ := h1e
      subst hri
      subst hsi
      subst hoff
      show RowStackNodeEvaluateThisNode tl (offsetsFrom (t + r0) (tl.map Prod.fst))
        (AssignToRowSliceValuesOf acc s0 t r0) (t + r) c = s0 r c
      rw [rowStackEval_untouched tl (t + r0) _ (t + r) c (by omega)]
      have hin : t ≤ t + r ∧ t + r < t + r0 := by omega
      simp [AssignToRowSliceValuesOf, hin, Nat.add_sub_cancel_left]
    | succ n =>
      have h1n : tl[n]? = some (ri, si) := by simpa using h1
      have h2n : (offsetsFrom (t + r0) (tl.map Prod.fst))[n]? = some off := by
        simpa [offsetsFrom] using h2
      show RowStackNodeEvaluateThisNode tl (offsetsFrom (t + r0) (tl.map Prod.fst))
        (AssignToRowSliceValuesOf acc s0 t r0) (off + r) c = si r c
      exact ih (t + r0) _ n ri si off h1n h2n r hr c

/-- C8: for `RowStack` inputs sharing a column count, final-pass validation
returns start row offsets equal to the exclusive prefix sums of the
preceding inputs' row counts and a total row count equal to their sum, and
forward evaluation places each input at its offset so that
`RowSlice(offset_i, rows_i)` on the stacked output recovers input `i`
exactly on its row range. -/
theorem rowstack_offsets_and_recovery (inputs : List (Nat × (Nat → Nat → Int)))
    (numCols : Nat) (acc : Nat → Nat → Int) :
    RowStackNodeValidate (inputs.map (fun p => (p.1, numCols))) true
        = Except.ok (offsetsFrom 0 (inputs.map Prod.fst), (inputs.map Prod.fst).sum) ∧
      ∀ (i ri : Nat) (si : Nat → Nat → Int) (off : Nat), inputs[i]? = some (ri, si) →
        (offsetsFrom 0 (inputs.map Prod.fst))[i]? = some off →
        ∀ r, r < ri → ∀ c,
          RowSliceNodeEvaluateThisNode
              (RowStackNodeEvaluateThisNode inputs (offsetsFrom 0 (inputs.map Prod.fst)) acc)
              off ri r c
            = si r c := by
  constructor
  · have hmap : (inputs.map (fun p => (p.1, numCols))).map Prod.fst = inputs.map Prod.fst := by
      simp [List.map_map]
    cases inputs with
    | nil => rfl
    | cons hd tl =>
      have hall : ∀ p ∈ (hd :: tl).map (fun p => (p.1, numCols)), p.2 = numCols := by
        intro p hp
        obtain ⟨q, _, hq⟩ := List.mem_map.mp hp
        rw [← hq]
      have hhead : (((hd :: tl).map (fun p => (p.1, numCols))).headD (0, 0)).2 = numCols := by
        simp
      unfold RowStackNodeValidate
      rw [hhead, rowStackGo_all_match numCols true _ hall 0 0, hmap]
      simp
  · intro i ri si off h1 h2 r hr c
    show RowStackNodeEvaluateThisNode inputs (offsetsFrom 0 (inputs.map Prod.fst)) acc
      (off + r) c = si r c
    exact rowStack_recover inputs 0 acc i ri si off h1 h2 r hr c

/-- Concrete instance of C8: row counts 2, 3, 4 with 5 columns give offsets
`[0, 2, 5]` and total 9, and `RowSlice(2, 3)` on the stacked output recovers
input 1 (probed at row 1, column 0). -/
theorem rowstack_offsets_and_recovery_witness :
    RowStackNodeValidate [(2, 5), (3, 5), (4, 5)] true = Except.ok ([0, 2, 5], 9) ∧
      RowSliceNodeEvaluateThisNode
          (RowStackNodeEvaluateThisNode
            [(2, fun r c => (10 + r + c : Int)), (3, fun r c => (20 + r + c : Int)),
              (4, fun r c => (30 + r + c : Int))]
            [0, 2, 5] (fun _ _ => 0))
          2 3 1 0
        = (fun r c => (20 + r + c : Int)) 1 0 := by
  have h := rowstack_offsets_and_recovery
    [(2, fun r c => (10 + r + c : Int)), (3, fun r c => (20 + r + c : Int)),
      (4, fun r c => (30 + r + c : Int))] 5 (fun _ _ => 0)
  exact ⟨h.1, h.2 1 3 (fun r c => (20 + r + c : Int)) 2 rfl rfl 1 (by decide) 0⟩

end CNTK
